import Mathlib

/-!
Shallow embedding of `src/tixlbase/models.py` (tixl event-ticketing backend):
the versioned-entity primitive (`Versionable.clone_shallow`), the variation
engine (`Item.get_all_variations`), the cache-invalidation side effects of the
`save()`/`delete()` overrides of the event-owned entity types, the
`Order.STATUS_CHOICE` table, and (modelled from the spec, since the source only
declares the `Quota` schema) the quota reservation ledger.

Database rows are Lean structures; querysets are lists; Django's
`Meta.ordering` is applied by an explicit sort; the Python `dict` is an
association list with first-occurrence replacement; side effects of `save()` /
`delete()` are recorded as explicit effect traces.
-/

namespace Tixlbase

/-- Observable side effects of a model method: a row write (`super().save()`),
a row removal (`super().delete()`), and a cache invalidation
(`event.get_cache().clear()`, tagged with the event's identity). -/
inductive Eff where
  | dbWrite : Eff
  | dbDelete : Eff
  | cacheClear : Nat → Eff
deriving DecidableEq

/-- Effect of `self.event.get_cache().clear()` guarded by `if self.event:`
(models.py pattern used by every overridden `save`/`delete`). -/
def clearEvent : Option Nat → List Eff
  | some e => [Eff.cacheClear e]
  | none => []

/-- Python `dict` assignment `d[k] = v`: replace the binding if the key is
present, else append a new binding (insertion order is preserved). -/
def dictSet [DecidableEq K] : List (K × V) → K → V → List (K × V)
  | [], k, v => [(k, v)]
  | p :: ps, k, v => if p.1 = k then (k, v) :: ps else p :: dictSet ps k v

/-- Python `dict` lookup `d[k]` / `k in d`: the value bound to `k`, if any. -/
def dictGet [DecidableEq K] (d : List (K × V)) (k : K) : Option V :=
  (d.find? (fun p => p.1 = k)).map (fun p => p.2)

/-- Concatenation of a list of lists (used to express `itertools.product`). -/
def flattenL : List (List A) → List A
  | [] => []
  | l :: ls => l ++ flattenL ls

/-- Python `itertools.product(*lists)`: all selections of one element per list,
with the first list varying slowest. The empty input yields one empty tuple. -/
def listProduct : List (List A) → List (List A)
  | [] => [[]]
  | l :: ls => flattenL (l.map (fun x => (listProduct ls).map (fun c => x :: c)))

/-- A row of `PropertyValue` (models.py:465-500). `prop_id` is the raw value of
the `prop` foreign-key column, while `prop_identity` and `prop_event` are the
`identity` and owning-event identity of the `Property` object that `self.prop`
resolves to (`prop_event = none` models an unset `prop` reference, the guard
`if self.prop:` in `save`/`delete`). -/
structure PropertyValue where
  identity : Nat
  prop_id : Nat
  prop_identity : Nat
  prop_event : Option Nat
  value : String
  position : Int
deriving DecidableEq

/-- A row of `Property` (models.py:432-462) together with its reverse relation
`values` (the `PropertyValue` rows whose `prop` points at it), as stored. -/
structure Property where
  identity : Nat
  event : Option Nat
  name : String
  values : List PropertyValue
deriving DecidableEq

/-- A row of `ItemCategory` (models.py:395-429). -/
structure ItemCategory where
  event : Option Nat
  name : String
  position : Int
deriving DecidableEq

/-- A row of `Question` (models.py:503-551). -/
structure Question where
  event : Option Nat
  question : String
  qtype : String
  required : Bool
deriving DecidableEq

/-- A row of `ItemVariation` (models.py:691-740) with its `values`
many-to-many relation. `item_event` is the identity of `self.item.event` when
the `item` reference is set (the guard `if self.item:` in `save`/`delete`). -/
structure ItemVariation where
  identity : Nat
  item_event : Option Nat
  values : List PropertyValue
  active : Bool
  default_price : Option Int
deriving DecidableEq

/-- A row of `Item` (models.py:554-688) with its `properties` and `questions`
many-to-many relations and its reverse relation `variations`. Decimal fields
are modelled as fixed-point integers. -/
structure Item where
  event : Option Nat
  category : Option Nat
  name : String
  active : Bool
  deleted : Bool
  short_description : Option String
  long_description : Option String
  default_price : Option Int
  tax_rate : Option Int
  properties : List Property
  questions : List Question
  variations : List ItemVariation
deriving DecidableEq

/-- A row of a `BaseRestriction` subclass (models.py:769-807). -/
structure BaseRestriction where
  event : Option Nat
  item : Option Nat
deriving DecidableEq

/-- A row of `Quota` (models.py:810-868); the `items`/`variations`/cache
relations are omitted, as the class defines no behaviour over them. -/
structure Quota where
  event : Option Nat
  name : String
  size : Nat
deriving DecidableEq

/-- Effect trace of `ItemCategory.save` (models.py:426-429). -/
def ItemCategory.save (c : ItemCategory) : List Eff :=
  [Eff.dbWrite] ++ clearEvent c.event

/-- Effect trace of `ItemCategory.delete` (models.py:421-424). -/
def ItemCategory.delete (c : ItemCategory) : List Eff :=
  [Eff.dbDelete] ++ clearEvent c.event

/-- Effect trace of `Property.save` (models.py:459-462). -/
def Property.save (p : Property) : List Eff :=
  [Eff.dbWrite] ++ clearEvent p.event

/-- Effect trace of `Property.delete` (models.py:454-457). -/
def Property.delete (p : Property) : List Eff :=
  [Eff.dbDelete] ++ clearEvent p.event

/-- Effect trace of `PropertyValue.save` (models.py:497-500): clears the cache
of `self.prop.event` under the guard `if self.prop:`. -/
def PropertyValue.save (v : PropertyValue) : List Eff :=
  [Eff.dbWrite] ++ clearEvent v.prop_event

/-- Effect trace of `PropertyValue.delete` (models.py:492-495). -/
def PropertyValue.delete (v : PropertyValue) : List Eff :=
  [Eff.dbDelete] ++ clearEvent v.prop_event

/-- Effect trace of `Question.save` (models.py:548-551). -/
def Question.save (q : Question) : List Eff :=
  [Eff.dbWrite] ++ clearEvent q.event

/-- Effect trace of `Question.delete` (models.py:543-546). -/
def Question.delete (q : Question) : List Eff :=
  [Eff.dbDelete] ++ clearEvent q.event

/-- Effect trace of `Item.save` (models.py:636-639). -/
def Item.save (it : Item) : List Eff :=
  [Eff.dbWrite] ++ clearEvent it.event

/-- Soft delete `Item.delete` (models.py:641-646): sets `deleted = True` and
`active = False`, persists via `super().save()` (never a row removal), then
clears the event cache. Returns the updated row and the effect trace. -/
def Item.delete (it : Item) : Item × List Eff :=
  let it' := { it with deleted := true, active := false }
  (it', [Eff.dbWrite] ++ clearEvent it'.event)

/-- Effect trace of `ItemVariation.save` (models.py:737-740): clears the cache
of `self.item.event` under the guard `if self.item:`; it does not touch any
attribute of the in-memory `Item` instance. -/
def ItemVariation.save (v : ItemVariation) : List Eff :=
  [Eff.dbWrite] ++ clearEvent v.item_event

/-- Effect trace of `ItemVariation.delete` (models.py:732-735). -/
def ItemVariation.delete (v : ItemVariation) : List Eff :=
  [Eff.dbDelete] ++ clearEvent v.item_event

/-- Effect trace of `BaseRestriction.save` (models.py:804-807). -/
def BaseRestriction.save (r : BaseRestriction) : List Eff :=
  [Eff.dbWrite] ++ clearEvent r.event

/-- Effect trace of `BaseRestriction.delete` (models.py:799-802). -/
def BaseRestriction.delete (r : BaseRestriction) : List Eff :=
  [Eff.dbDelete] ++ clearEvent r.event

/-- Effect trace of saving a `Quota` (models.py:810-868): the class overrides
neither `save` nor `delete`, so only the inherited row write happens and no
event cache is cleared. -/
def Quota.save (_q : Quota) : List Eff :=
  [Eff.dbWrite]

/-- Effect trace of deleting a `Quota`: the inherited row removal only. -/
def Quota.delete (_q : Quota) : List Eff :=
  [Eff.dbDelete]

/-- Lexicographic order on pairs of naturals: the order Python's `sorted` uses
on the `(id, id)` tuples appended at models.py:668 and models.py:680. -/
def pairLe (p q : Nat × Nat) : Prop :=
  p.1 < q.1 ∨ (p.1 = q.1 ∧ p.2 ≤ q.2)

instance : DecidableRel pairLe := fun p q => by
  unfold pairLe
  exact inferInstance

instance : IsTotal (Nat × Nat) pairLe := by
  constructor
  intro p q
  unfold pairLe
  omega

instance : IsTrans (Nat × Nat) pairLe := by
  constructor
  intro p q r hpq hqr
  unfold pairLe at *
  omega

instance : IsAntisymm (Nat × Nat) pairLe := by
  constructor
  intro p q hpq hqp
  unfold pairLe at *
  have h1 : p.1 = q.1 := by omega
  have h2 : p.2 = q.2 := by omega
  exact Prod.ext h1 h2

/-- Python's `tuple(sorted(key))` on a list of `(id, id)` pairs
(models.py:669 and models.py:682). -/
def sortKey (l : List (Nat × Nat)) : List (Nat × Nat) :=
  List.insertionSort pairLe l

/-- A `PropertyValue` queryset result such as `prop.values.all()` or
`var.values.all()`: the stored rows sorted by the `Meta.ordering` of
`PropertyValue`, which is `("position",)` (models.py:487). -/
def values_all (vs : List PropertyValue) : List PropertyValue :=
  List.insertionSort (fun v w => v.position ≤ w.position) vs

/-- One entry of the result list of `Item.get_all_variations`: the
`VariationDict` built at models.py:674-685, mapping each property's identity to
the chosen `PropertyValue` (a Python dict, kept in insertion order), with the
special key `'variation'` modelled as a separate optional field. -/
structure VariationBinding where
  assignments : List (Nat × PropertyValue)
  variation : Option ItemVariation
deriving DecidableEq

/-- Index key of one `ItemVariation` in the override index: the sorted tuple of
`(v.prop_id, v.identity)` over `var.values.all()` (models.py:666-669). -/
def ItemVariation.cacheKey (var : ItemVariation) : List (Nat × Nat) :=
  sortKey ((values_all var.values).map (fun v => (v.prop_id, v.identity)))

/-- The override index `variations_cache` (models.py:664-670): a dict from
index keys to `ItemVariation` rows, filled in iteration order (so a later row
with the same key replaces the earlier one). -/
def Item.variations_cache (it : Item) : List (List (Nat × Nat) × ItemVariation) :=
  it.variations.foldl (fun d var => dictSet d var.cacheKey var) []

/-- Lookup key of one product tuple: the sorted tuple of
`(v.prop.identity, v.identity)` over the tuple (models.py:677-682). -/
def combKey (comb : List PropertyValue) : List (Nat × Nat) :=
  sortKey (comb.map (fun v => (v.prop_identity, v.identity)))

/-- Body of the loop at models.py:673-685 for one product tuple `comb`: an
empty tuple yields an empty `VariationDict`; otherwise the dict assigns
`var[v.prop.identity] = v` for each value and attaches the override found in
the index under the tuple's key, if any. -/
def combBinding (cache : List (List (Nat × Nat) × ItemVariation))
    (comb : List PropertyValue) : VariationBinding :=
  if comb.length = 0 then ⟨[], none⟩
  else
    ⟨comb.foldl (fun d v => dictSet d v.prop_identity v) [],
     dictGet cache (combKey comb)⟩

/-- Computation part of `Item.get_all_variations` (models.py:662-688): the
Cartesian product of `prop.values.all()` over `self.properties.all()`, each
tuple turned into a `VariationBinding` against the override index. -/
def Item.get_all_variations (it : Item) : List VariationBinding :=
  (listProduct (it.properties.map (fun prop => values_all prop.values))).map
    (combBinding it.variations_cache)

/-- An in-memory `Item` model instance: the row data (and related rows) it
reads through the ORM, plus the memo attribute `_get_all_variations_cache`
set at models.py:687 (`none` models `hasattr` being false). -/
structure ItemInstance where
  item : Item
  get_all_variations_cache : Option (List VariationBinding)
deriving DecidableEq

/-- The full method `Item.get_all_variations(use_cache)` (models.py:648-688):
with `use_cache` and a memo present, returns the memo unchanged; otherwise
recomputes from the current data and stores the memo on the instance. -/
def Item.get_all_variations_method (use_cache : Bool) (inst : ItemInstance) :
    List VariationBinding × ItemInstance :=
  if use_cache then
    match inst.get_all_variations_cache with
    | some r => (r, inst)
    | none =>
        let r := inst.item.get_all_variations
        (r, { inst with get_all_variations_cache := some r })
  else
    let r := inst.item.get_all_variations
    (r, { inst with get_all_variations_cache := some r })

/-- Saving an `ItemVariation` of an in-memory `Item` instance: the row is
persisted (the instance's related data now contains it) and the effects of
`ItemVariation.save` happen. The method body at models.py:737-740 contains no
access to the item instance's attributes, so `get_all_variations_cache` is
carried over unchanged. -/
def ItemVariation.save_on (v : ItemVariation) (inst : ItemInstance) :
    ItemInstance × List Eff :=
  ({ inst with item := { inst.item with variations := inst.item.variations ++ [v] } },
   v.save)

/-- A versionable row (the fields of `versions.models.Versionable` used by
`clone_shallow`, models.py:18-56): `id` is the surrogate key (`none` models an
unsaved instance, the `if not self.pk:` guard), `identity` the stable logical
key, and `fields` the entity-specific field values carried along verbatim by
`copy.copy`. Timestamps are integers. -/
structure Versionable (A : Type) where
  id : Option Nat
  identity : Nat
  version_start_date : Int
  version_end_date : Option Int
  fields : A
deriving DecidableEq

/-- Success path of `clone_shallow` (models.py:41-56): `later_version` is a
copy of the row with an open interval starting at `d` and the original `id`;
`earlier_version` is the row re-keyed under the fresh surrogate key with its
interval closed at `d`. Both are saved; the pair `(earlier, later)` is
returned. -/
def clone_shallow_commit (e : Versionable A) (d : Int) (fresh_id : Nat) :
    Versionable A × Versionable A :=
  let later_version := { e with version_end_date := none, version_start_date := d }
  let earlier_version := { e with id := some fresh_id, version_end_date := some d }
  (earlier_version, later_version)

/-- The method `Versionable.clone_shallow` (models.py:23-56). The generated
UUID of models.py:50 is passed in as `fresh_id`; `get_utc_now()` as `now`.
Errors (`ValueError` in the source, the spec's `InvalidStateError`) are raised
before any mutation, so the error branches return only the message. -/
def clone_shallow (e : Versionable A) (forced_version_date : Option Int)
    (now : Int) (fresh_id : Nat) :
    Except String (Versionable A × Versionable A) :=
  if e.id = none then
    Except.error "Instance must be saved before it can be cloned"
  else if e.version_end_date ≠ none then
    Except.error "This is a historical item and can not be cloned."
  else
    match forced_version_date with
    | some d =>
        if e.version_start_date ≤ d ∧ d ≤ now then
          Except.ok (clone_shallow_commit e d fresh_id)
        else
          Except.error "The clone date must be between the version start date and now."
    | none => Except.ok (clone_shallow_commit e now fresh_id)

/-- Truth of an `Except` value being the error case. -/
def isError : Except E A → Prop
  | Except.error _ => True
  | Except.ok _ => False

instance : DecidablePred (isError (E := E) (A := A)) := fun x => by
  cases x <;> simp [isError] <;> infer_instance

namespace Order

/-- Status code `Order.STATUS_PENDING` (models.py:882). -/
def STATUS_PENDING : String := "n"

/-- Status code `Order.STATUS_PAID` (models.py:883). -/
def STATUS_PAID : String := "p"

/-- Status code `Order.STATUS_EXPIRED` (models.py:884). -/
def STATUS_EXPIRED : String := "e"

/-- Status code `Order.STATUS_CANCELLED` (models.py:885). -/
def STATUS_CANCELLED : String := "c"

/-- The `Order.STATUS_CHOICE` tuple exactly as written at models.py:886-891,
pairing each status code with its human-readable label. -/
def STATUS_CHOICE : List (String × String) :=
  [(STATUS_PAID, "pending"),
   (STATUS_PENDING, "paid"),
   (STATUS_EXPIRED, "expired"),
   (STATUS_CANCELLED, "cancelled")]

end Order

/-- Modelled from the spec: an active cart lock held against a quota, carrying
its expiry timestamp (spec section 4.3; the reservation engine itself is not
part of `src/tixlbase/models.py`, which only declares the `Quota` schema). -/
structure CartLock where
  expires : Int
deriving DecidableEq

/-- Modelled from the spec: the ledger state of one `Quota` — its capacity
`size`, the count of confirmed order positions, and the active cart locks
(spec sections 3 and 4.3). -/
structure QuotaLedger where
  size : Nat
  confirmed_orders_count : Nat
  locks : List CartLock
deriving DecidableEq

/-- Modelled from the spec: the failure mode of a reservation attempt with no
headroom (spec section 7). -/
inductive QuotaError where
  | QuotaExceeded : QuotaError
deriving DecidableEq

/-- Modelled from the spec: one serialized reservation attempt against a quota
(spec sections 4.3 and 5 — quota grant/release operations are serialized per
quota identity, so a reservation is an atomic state transition):
`available = size - (confirmed_orders_count + active_cart_locks_count)`; the
request is granted, adding a cart lock with the given expiry, only if
`available >= requested`; otherwise `QuotaExceeded` is raised. -/
def reserve (q : QuotaLedger) (requested : Nat) (expires : Int) :
    Except QuotaError (QuotaLedger × CartLock) :=
  let available := q.size - (q.confirmed_orders_count + q.locks.length)
  if requested ≤ available then
    Except.ok ({ q with locks := q.locks ++ [⟨expires⟩] }, ⟨expires⟩)
  else
    Except.error QuotaError.QuotaExceeded

/-- Modelled from the spec: the reaping routine removing expired cart locks so
their capacity is released (spec section 4.3, expiry reclamation: a lock whose
`expires` timestamp has passed no longer counts). -/
def reap (q : QuotaLedger) (now : Int) : QuotaLedger :=
  { q with locks := q.locks.filter (fun l => now < l.expires) }

/-- Signature of an `ItemVariation` in the words of the spec: the sorted
signature of `(property identity, value identity)` pairs over its attached
`PropertyValue`s. This is the spec-side notion compared against the code's
`ItemVariation.cacheKey`, which uses the raw `prop_id` column instead of the
resolved property's `identity` and reads the values in queryset order. -/
def variationSignature (var : ItemVariation) : List (Nat × Nat) :=
  sortKey (var.values.map (fun v => (v.prop_identity, v.identity)))

/-- Signature of a binding's chosen values in the words of the spec: the
sorted signature of `(property identity, value identity)` pairs over the
property-to-value assignments of the binding. -/
def bindingSignature (b : VariationBinding) : List (Nat × Nat) :=
  sortKey (b.assignments.map (fun p => (p.1, p.2.identity)))

/-- Concrete value "a" of property 1 for the C1 example. -/
def vC1a : PropertyValue := ⟨10, 1, 1, some 1, "a", 0⟩

/-- Concrete property with one value for the C1 example. -/
def pC1 : Property := ⟨1, some 1, "Size", [vC1a]⟩

/-- Concrete override row matching the only combination, for the C1 example. -/
def varC1 : ItemVariation := ⟨100, some 1, [vC1a], true, some 999⟩

/-- Concrete item for the C1 example. -/
def itemC1 : Item :=
  ⟨some 1, none, "Shirt", true, false, none, none, some 100, none, [pC1], [], [varC1]⟩

/-- The binding `Item.get_all_variations` produces for `itemC1`. -/
def bC1 : VariationBinding := ⟨[(1, vC1a)], some varC1⟩

/-- Concrete quota with a set owning event, for the C2 counterexample. -/
def quotaC2 : Quota := ⟨some 1, "Gold", 5⟩

/-- Concrete category for the C2 witness. -/
def catC2 : ItemCategory := ⟨some 2, "Merch", 0⟩

/-- Concrete property for the C2 witness. -/
def propC2 : Property := ⟨3, some 3, "Size", []⟩

/-- Concrete property value for the C2 witness. -/
def pvC2 : PropertyValue := ⟨4, 3, 3, some 4, "M", 0⟩

/-- Concrete question for the C2 witness. -/
def questC2 : Question := ⟨some 5, "Name?", "S", false⟩

/-- Concrete item for the C2 witness. -/
def itemC2 : Item :=
  ⟨some 6, none, "Ticket", true, false, none, none, some 100, none, [], [], []⟩

/-- Concrete item variation for the C2 witness. -/
def ivC2 : ItemVariation := ⟨7, some 7, [], true, none⟩

/-- Concrete restriction for the C2 witness. -/
def restC2 : BaseRestriction := ⟨some 8, none⟩

/-- Concrete value of the single property for the C3 counterexample. -/
def vC3 : PropertyValue := ⟨10, 1, 1, some 1, "red", 0⟩

/-- Concrete property for the C3 counterexample. -/
def pC3 : Property := ⟨1, some 1, "Color", [vC3]⟩

/-- Concrete item, initially without override rows, for the C3 counterexample. -/
def itemC3 : Item :=
  ⟨some 1, none, "Shirt", true, false, none, none, some 100, none, [pC3], [], []⟩

/-- Concrete override row written after the memo was filled (C3). -/
def varC3 : ItemVariation := ⟨50, some 1, [vC3], false, some 200⟩

/-- The in-memory item instance before any call (no memo yet). -/
def instC3 : ItemInstance := ⟨itemC3, none⟩

/-- The instance after a first `get_all_variations(use_cache=True)` call. -/
def instC3mem : ItemInstance := (Item.get_all_variations_method true instC3).2

/-- The instance after the override row is saved: the related data changed,
the memo did not. -/
def instC3w : ItemInstance := (ItemVariation.save_on varC3 instC3mem).1

/-- Concrete instance with a (stale) memo for the C3 amended witness. -/
def instC3b : ItemInstance := ⟨itemC2, some []⟩

/-- Concrete variation being saved for the C3 amended witness. -/
def varC3b : ItemVariation := ⟨51, some 9, [], true, none⟩

/-- Concrete saved entity for the C6 witness. -/
def entC6 : Versionable Nat := ⟨some 1, 1, 0, none, 42⟩

/-- Values and properties for the C7 witness: P1 = (a, b), P2 = (x, y). -/
def vaC7 : PropertyValue := ⟨10, 1, 1, some 1, "a", 0⟩

/-- Value b of P1 for the C7 witness. -/
def vbC7 : PropertyValue := ⟨11, 1, 1, some 1, "b", 1⟩

/-- Value x of P2 for the C7 witness. -/
def vxC7 : PropertyValue := ⟨20, 2, 2, some 1, "x", 0⟩

/-- Value y of P2 for the C7 witness. -/
def vyC7 : PropertyValue := ⟨21, 2, 2, some 1, "y", 1⟩

/-- Property P1 for the C7 witness. -/
def p1C7 : Property := ⟨1, some 1, "P1", [vaC7, vbC7]⟩

/-- Property P2 for the C7 witness. -/
def p2C7 : Property := ⟨2, some 1, "P2", [vxC7, vyC7]⟩

/-- An override row matching (b, x) for the C7 witness item. -/
def varC7 : ItemVariation := ⟨100, some 1, [vbC7, vxC7], true, some 500⟩

/-- Concrete two-property item for the C7 witness. -/
def itemC7 : Item :=
  ⟨some 1, none, "Shirt", true, false, none, none, some 100, none,
   [p1C7, p2C7], [], [varC7]⟩

/-- Concrete item with no properties (but a pathological override row) for the
C8 witness. -/
def itemC8 : Item :=
  ⟨some 1, none, "Simple", true, false, none, none, some 50, none, [], [],
   [⟨77, some 1, [], true, none⟩]⟩

/-- Concrete item with all fields populated for the C9 witness. -/
def itemC9 : Item :=
  ⟨some 3, some 4, "VIP", true, false, some "short", some "long", some 2500,
   some 19, [pC1], [questC2], [varC1]⟩

/-- Membership in the concatenation of a list of lists. -/
theorem mem_flattenL {L : List (List A)} {a : A} :
    a ∈ flattenL L ↔ ∃ l ∈ L, a ∈ l := by
  induction L with
  | nil => simp [flattenL]
  | cons l ls ih => simp [flattenL, List.mem_append, ih]

/-- A tuple is in the Cartesian product exactly when it selects one element
from each input list, in order. -/
theorem mem_listProduct {ls : List (List A)} {c : List A} :
    c ∈ listProduct ls ↔ List.Forall₂ (fun x l => x ∈ l) c ls := by
  induction ls generalizing c with
  | nil => simp [listProduct]
  | cons l ls ih =>
      simp only [listProduct, mem_flattenL, List.mem_map, List.forall₂_cons_right_iff]
      constructor
      · rintro ⟨l', ⟨x, hx, rfl⟩, hc⟩
        rcases List.mem_map.mp hc with ⟨c', hc', rfl⟩
        exact ⟨x, c', hx, ih.mp hc', rfl⟩
      · rintro ⟨x, c', hx, hc', rfl⟩
        exact ⟨(listProduct ls).map (fun c => x :: c), ⟨x, hx, rfl⟩,
          List.mem_map.mpr ⟨c', ih.mpr hc', rfl⟩⟩

/-- Lookup after a Python-dict assignment: the new binding shadows the old
exactly at the assigned key. -/
theorem dictGet_dictSet [DecidableEq K] (d : List (K × V)) (k k' : K) (v : V) :
    dictGet (dictSet d k v) k' = if k' = k then some v else dictGet d k' := by
  induction d with
  | nil =>
      by_cases h : k' = k
      · simp [dictSet, dictGet, List.find?_cons, h]
      · have h' : ¬(k = k') := fun hc => h hc.symm
        simp [dictSet, dictGet, List.find?_cons, h, h']
  | cons p ps ih =>
      by_cases h1 : p.1 = k
      · by_cases h2 : k' = k
        · simp [dictSet, dictGet, List.find?_cons, h1, h2]
        · have h2' : ¬(k = k') := fun hc => h2 hc.symm
          have hp : ¬(p.1 = k') := fun hc => h2' (h1.symm.trans hc)
          simp [dictSet, dictGet, List.find?_cons, h1, h2, h2', hp]
      · by_cases h2 : p.1 = k'
        · have h3 : ¬(k' = k) := fun hc => h1 (h2.trans hc)
          simp [dictSet, dictGet, List.find?_cons, h1, h2, h3]
        · simpa [dictSet, dictGet, List.find?_cons, h1, h2] using ih

/-- Presence of a key after filling a Python dict by a fold of assignments. -/
theorem dictGet_foldl_dictSet_isSome [DecidableEq K] (key : A → K)
    (l : List A) (d0 : List (K × A)) (k : K) :
    (dictGet (l.foldl (fun d x => dictSet d (key x) x) d0) k).isSome = true ↔
      ((∃ x ∈ l, key x = k) ∨ (dictGet d0 k).isSome = true) := by
  induction l generalizing d0 with
  | nil => simp
  | cons x xs ih =>
      rw [List.foldl_cons, ih, dictGet_dictSet]
      by_cases hk : k = key x
      · simp [hk]
      · have hk' : ¬(key x = k) := fun hc => hk hc.symm
        simp only [if_neg hk, List.mem_cons]
        constructor
        · rintro (⟨y, hy, hky⟩ | hd)
          · exact Or.inl ⟨y, Or.inr hy, hky⟩
          · exact Or.inr hd
        · rintro (⟨y, (rfl | hy), hky⟩ | hd)
          · exact absurd hky hk'
          · exact Or.inl ⟨y, hy, hky⟩
          · exact Or.inr hd

/-- A Python-dict assignment with a key absent from the dict appends. -/
theorem dictSet_eq_append [DecidableEq K] {d : List (K × V)} {k : K} {v : V}
    (h : ∀ p ∈ d, p.1 ≠ k) : dictSet d k v = d ++ [(k, v)] := by
  induction d with
  | nil => rfl
  | cons p ps ih =>
      rw [dictSet, if_neg (h p (List.mem_cons_self p ps)), ih
        (fun q hq => h q (List.mem_cons_of_mem p hq))]
      rfl

/-- Filling an empty Python dict with assignments under pairwise-distinct keys
keeps every binding, in assignment order. -/
theorem foldl_dictSet_eq_map [DecidableEq K] (key : A → K) (l : List A)
    (d0 : List (K × A)) (hd : ∀ x ∈ l, ∀ p ∈ d0, p.1 ≠ key x)
    (hnd : (l.map key).Nodup) :
    l.foldl (fun d x => dictSet d (key x) x) d0 = d0 ++ l.map (fun x => (key x, x)) := by
  induction l generalizing d0 with
  | nil => simp
  | cons x xs ih =>
      rw [List.foldl_cons,
        dictSet_eq_append (fun p hp => hd x (List.mem_cons_self x xs) p hp)]
      rw [List.map_cons] at hnd
      rw [ih (d0 ++ [(key x, x)]) ?_ hnd.of_cons]
      · simp
      · intro y hy p hp
        rcases List.mem_append.mp hp with hp | hp
        · exact hd y (List.mem_cons_of_mem x hy) p hp
        · rcases List.mem_singleton.mp hp with rfl
          intro hc
          have hc' : key x = key y := hc
          exact (List.nodup_cons.mp hnd).1
            (by rw [hc']; exact List.mem_map_of_mem key hy)

/-- Sorting a key tuple only depends on the multiset of pairs. -/
theorem sortKey_perm_eq {l l' : List (Nat × Nat)} (h : l.Perm l') :
    sortKey l = sortKey l' :=
  List.eq_of_perm_of_sorted
    ((List.perm_insertionSort pairLe l).trans
      (h.trans (List.perm_insertionSort pairLe l').symm))
    (List.sorted_insertionSort pairLe l) (List.sorted_insertionSort pairLe l')

/-- Sorting a nonempty key tuple yields a nonempty tuple. -/
theorem sortKey_ne_nil {l : List (Nat × Nat)} (h : l ≠ []) : sortKey l ≠ [] := by
  intro hc
  have := List.length_insertionSort pairLe l
  rw [sortKey] at hc
  rw [hc] at this
  exact h (List.eq_nil_of_length_eq_zero this.symm)

/-- The queryset ordering does not change which rows are present. -/
theorem mem_values_all {vs : List PropertyValue} {v : PropertyValue} :
    v ∈ values_all vs ↔ v ∈ vs :=
  (List.perm_insertionSort _ vs).mem_iff

/-- A product tuple selecting one value from each property's queryset carries
the properties' identities, in order, when the reverse relation is
consistent. -/
theorem forall2_prop_identity (ps : List Property) (comb : List PropertyValue)
    (hrev : ∀ p ∈ ps, ∀ v ∈ p.values, v.prop_identity = p.identity)
    (hmem : List.Forall₂ (fun v p => v ∈ values_all p.values) comb ps) :
    comb.map (fun v => v.prop_identity) = ps.map Property.identity := by
  revert hrev
  induction hmem with
  | nil => intro _; rfl
  | @cons v p comb' ps' hvp _hrest ih =>
      intro hrev
      simp only [List.map_cons]
      rw [hrev p (List.mem_cons_self p ps') v (mem_values_all.mp hvp)]
      rw [ih (fun q hq w hw => hrev q (List.mem_cons_of_mem p hq) w hw)]

/-- The code's override index key agrees with the spec's variation signature
when every value's raw `prop_id` column equals the resolved property's
identity (the head-row invariant of the versioning scheme: the current row of
a property keeps its original surrogate key, which equals its identity). -/
theorem cacheKey_eq_variationSignature (var : ItemVariation)
    (hfk : ∀ v ∈ var.values, v.prop_id = v.prop_identity) :
    var.cacheKey = variationSignature var := by
  have h1 : (values_all var.values).map (fun v => (v.prop_id, v.identity)) =
      (values_all var.values).map (fun v => (v.prop_identity, v.identity)) :=
    List.map_congr_left (fun v hv => by rw [hfk v (mem_values_all.mp hv)])
  rw [ItemVariation.cacheKey, variationSignature, h1]
  exact sortKey_perm_eq ((List.perm_insertionSort _ var.values).map _)

/-- C1: in `Item.get_all_variations`, an override is attached to a binding
exactly when some `ItemVariation` of the item has the same sorted signature of
(property identity, value identity) pairs as the binding's chosen values —
the override index and the per-tuple lookup compute the same signature.
Hypotheses: the foreign-key columns of the variations' values point at the
head rows of their properties (`prop_id = prop.identity`), the reverse
relation of each property is consistent, the item's properties have distinct
identities, and every stored variation has at least one attached value. -/
theorem C1_override_iff_signature_match (it : Item)
    (hfk : ∀ var ∈ it.variations, ∀ v ∈ var.values, v.prop_id = v.prop_identity)
    (hrev : ∀ p ∈ it.properties, ∀ v ∈ p.values, v.prop_identity = p.identity)
    (hnodup : (it.properties.map Property.identity).Nodup)
    (hne : ∀ var ∈ it.variations, var.values ≠ []) :
    ∀ b ∈ it.get_all_variations,
      b.variation.isSome = true ↔
        ∃ var ∈ it.variations, variationSignature var = bindingSignature b := by
  intro b hb
  simp only [Item.get_all_variations, List.mem_map] at hb
  obtain ⟨comb, hcomb, rfl⟩ := hb
  have hsig : ∀ var ∈ it.variations, var.cacheKey = variationSignature var :=
    fun var hvar => cacheKey_eq_variationSignature var (hfk var hvar)
  by_cases hcnil : comb = []
  · subst hcnil
    have hcb : combBinding it.variations_cache [] = ⟨[], none⟩ := rfl
    rw [hcb]
    constructor
    · intro h
      simp at h
    · rintro ⟨var, hvar, hsig'⟩
      exfalso
      have hmapne : var.values.map (fun v => (v.prop_identity, v.identity)) ≠ [] := by
        simp [hne var hvar]
      apply sortKey_ne_nil hmapne
      have hbs : bindingSignature (⟨[], none⟩ : VariationBinding) = [] := rfl
      rw [variationSignature] at hsig'
      rw [hsig', hbs]
  · have hf2 : List.Forall₂ (fun v p => v ∈ values_all p.values) comb it.properties := by
      have hm := mem_listProduct.mp hcomb
      rwa [List.forall₂_map_right_iff] at hm
    have hids : comb.map (fun v => v.prop_identity) = it.properties.map Property.identity :=
      forall2_prop_identity it.properties comb hrev hf2
    have hknodup : (comb.map (fun v => v.prop_identity)).Nodup := by
      rw [hids]; exact hnodup
    have hassign : comb.foldl (fun d v => dictSet d v.prop_identity v) [] =
        comb.map (fun v => (v.prop_identity, v)) := by
      have h := foldl_dictSet_eq_map (fun v => v.prop_identity) comb []
        (by simp) hknodup
      simpa using h
    have hlen : ¬(comb.length = 0) :=
      fun hc => hcnil (List.eq_nil_of_length_eq_zero hc)
    have hcb : combBinding it.variations_cache comb =
        ⟨comb.foldl (fun d v => dictSet d v.prop_identity v) [],
         dictGet it.variations_cache (combKey comb)⟩ := by
      rw [combBinding, if_neg hlen]
    rw [hcb]
    have hbsig : bindingSignature
        (⟨comb.foldl (fun d v => dictSet d v.prop_identity v) [],
          dictGet it.variations_cache (combKey comb)⟩ : VariationBinding) =
        combKey comb := by
      rw [bindingSignature]
      simp only [hassign, List.map_map]
      rfl
    rw [hbsig]
    show (dictGet it.variations_cache (combKey comb)).isSome = true ↔ _
    rw [Item.variations_cache,
      dictGet_foldl_dictSet_isSome ItemVariation.cacheKey it.variations []
        (combKey comb)]
    constructor
    · rintro (⟨var, hvar, hkey⟩ | habs)
      · exact ⟨var, hvar, (hsig var hvar).symm.trans hkey⟩
      · simp [dictGet] at habs
    · rintro ⟨var, hvar, hsig'⟩
      exact Or.inl ⟨var, hvar, (hsig var hvar).trans hsig'⟩

/-- C1 witness: on the concrete item `itemC1` with its single binding `bC1`,
the override is attached and the signature match holds. -/
theorem C1_witness :
    bC1.variation.isSome = true ↔
      ∃ var ∈ itemC1.variations, variationSignature var = bindingSignature bC1 :=
  C1_override_iff_signature_match itemC1 (by decide) (by decide) (by decide)
    (by decide) bC1 (by decide)

/-- C4: in the source's `Order.STATUS_CHOICE` tuple, the status code
`STATUS_PAID` ("p") is paired with the label "pending" and the status code
`STATUS_PENDING` ("n") is paired with the label "paid" — the labels are
swapped relative to the constant names. -/
theorem C4_status_choice_labels_swapped :
    Order.STATUS_CHOICE.lookup Order.STATUS_PAID = some "pending" ∧
    Order.STATUS_CHOICE.lookup Order.STATUS_PENDING = some "paid" ∧
    Order.STATUS_PAID = "p" ∧ Order.STATUS_PENDING = "n" := by
  refine ⟨?_, ?_, rfl, rfl⟩ <;> rfl

/-- C5: `clone_shallow` raises an error exactly when the entity has no
persisted key, or its version interval is already closed, or an explicitly
supplied clone timestamp lies outside the closed interval from
`version_start_date` to now; all error checks happen before any mutation. -/
theorem C5_clone_shallow_error_iff (e : Versionable A) (forced : Option Int)
    (now : Int) (fresh_id : Nat) :
    isError (clone_shallow e forced now fresh_id) ↔
      (e.id = none ∨ e.version_end_date ≠ none ∨
        ∃ d, forced = some d ∧ ¬(e.version_start_date ≤ d ∧ d ≤ now)) := by
  by_cases h1 : e.id = none
  · simp [clone_shallow, h1, isError]
  · by_cases h2 : e.version_end_date = none
    · cases forced with
      | none => simp [clone_shallow, h1, h2, isError]
      | some d =>
          by_cases h3 : e.version_start_date ≤ d ∧ d ≤ now
          · simp [clone_shallow, h1, h2, h3, isError]
          · simp [clone_shallow, h1, h2, h3, isError]
            omega
    · simp [clone_shallow, h1, h2, isError]

/-- C6: a successful `clone_shallow` at timestamp `at` closes the old row's
interval at `at`, and the returned new row carries identical field values, an
open interval starting at `at`, and the original surrogate key and identity,
while the old historical row is re-keyed under the fresh surrogate key. -/
theorem C6_clone_shallow_success (e : Versionable A) (forced : Option Int)
    (now : Int) (fresh_id : Nat) (old new : Versionable A)
    (h : clone_shallow e forced now fresh_id = Except.ok (old, new)) :
    old.version_end_date = some (forced.getD now) ∧
    old.id = some fresh_id ∧
    old.identity = e.identity ∧
    old.fields = e.fields ∧
    old.version_start_date = e.version_start_date ∧
    new.version_start_date = forced.getD now ∧
    new.version_end_date = none ∧
    new.id = e.id ∧
    new.identity = e.identity ∧
    new.fields = e.fields := by
  by_cases h1 : e.id = none
  · simp [clone_shallow, h1] at h
  · by_cases h2 : e.version_end_date = none
    · cases forced with
      | none =>
          simp [clone_shallow, h1, h2, clone_shallow_commit, Prod.ext_iff] at h
          obtain ⟨h4, h5⟩ := h
          subst h4
          subst h5
          simp
      | some d =>
          by_cases h3 : e.version_start_date ≤ d ∧ d ≤ now
          · simp [clone_shallow, h1, h2, h3, clone_shallow_commit, Prod.ext_iff] at h
            obtain ⟨h4, h5⟩ := h
            subst h4
            subst h5
            simp
          · simp [clone_shallow, h1, h2, h3, clone_shallow_commit] at h
    · simp [clone_shallow, h1, h2] at h

/-- C6 witness: cloning the concrete entity `entC6` at time 5 (now = 10) with
fresh key 99 behaves as stated. -/
theorem C6_witness :
    (⟨some 99, 1, 0, some 5, 42⟩ : Versionable Nat).version_end_date =
        some ((some (5 : Int)).getD 10) ∧
    (⟨some 99, 1, 0, some 5, 42⟩ : Versionable Nat).id = some 99 ∧
    (⟨some 99, 1, 0, some 5, 42⟩ : Versionable Nat).identity = entC6.identity ∧
    (⟨some 99, 1, 0, some 5, 42⟩ : Versionable Nat).fields = entC6.fields ∧
    (⟨some 99, 1, 0, some 5, 42⟩ : Versionable Nat).version_start_date =
        entC6.version_start_date ∧
    (⟨some 1, 1, 5, none, 42⟩ : Versionable Nat).version_start_date =
        (some (5 : Int)).getD 10 ∧
    (⟨some 1, 1, 5, none, 42⟩ : Versionable Nat).version_end_date = none ∧
    (⟨some 1, 1, 5, none, 42⟩ : Versionable Nat).id = entC6.id ∧
    (⟨some 1, 1, 5, none, 42⟩ : Versionable Nat).identity = entC6.identity ∧
    (⟨some 1, 1, 5, none, 42⟩ : Versionable Nat).fields = entC6.fields :=
  C6_clone_shallow_success entC6 (some 5) 10 99
    ⟨some 99, 1, 0, some 5, 42⟩ ⟨some 1, 1, 5, none, 42⟩ (by rfl)

/-- C8: an item with zero attached properties yields exactly one binding, with
no property-to-value assignments and no attached override. -/
theorem C8_zero_properties (it : Item) (h : it.properties = []) :
    it.get_all_variations = [⟨[], none⟩] := by
  simp [Item.get_all_variations, h, listProduct, combBinding]

/-- C8 witness: the concrete no-property item `itemC8` (which even has a
stored override row) yields the single empty binding without an override. -/
theorem C8_witness : itemC8.get_all_variations = [⟨[], none⟩] :=
  C8_zero_properties itemC8 rfl

/-- C9: `Item.delete` sets `deleted` and clears `active`, persists the row by
a write (never a removal), leaves every other field unchanged, and triggers
exactly one cache clear on the owning event. -/
theorem C9_item_soft_delete (it : Item) (e : Nat) (h : it.event = some e) :
    (it.delete).1.deleted = true ∧
    (it.delete).1.active = false ∧
    (it.delete).1.event = it.event ∧
    (it.delete).1.category = it.category ∧
    (it.delete).1.name = it.name ∧
    (it.delete).1.short_description = it.short_description ∧
    (it.delete).1.long_description = it.long_description ∧
    (it.delete).1.default_price = it.default_price ∧
    (it.delete).1.tax_rate = it.tax_rate ∧
    (it.delete).1.properties = it.properties ∧
    (it.delete).1.questions = it.questions ∧
    (it.delete).1.variations = it.variations ∧
    (it.delete).2 = [Eff.dbWrite, Eff.cacheClear e] ∧
    Eff.dbDelete ∉ (it.delete).2 ∧
    ((it.delete).2.count (Eff.cacheClear e)) = 1 := by
  simp [Item.delete, clearEvent, h, List.count_cons]

/-- C9 witness: soft-deleting the fully populated concrete item `itemC9`. -/
theorem C9_witness :
    (itemC9.delete).1.deleted = true ∧
    (itemC9.delete).1.active = false ∧
    (itemC9.delete).1.event = itemC9.event ∧
    (itemC9.delete).1.category = itemC9.category ∧
    (itemC9.delete).1.name = itemC9.name ∧
    (itemC9.delete).1.short_description = itemC9.short_description ∧
    (itemC9.delete).1.long_description = itemC9.long_description ∧
    (itemC9.delete).1.default_price = itemC9.default_price ∧
    (itemC9.delete).1.tax_rate = itemC9.tax_rate ∧
    (itemC9.delete).1.properties = itemC9.properties ∧
    (itemC9.delete).1.questions = itemC9.questions ∧
    (itemC9.delete).1.variations = itemC9.variations ∧
    (itemC9.delete).2 = [Eff.dbWrite, Eff.cacheClear 3] ∧
    Eff.dbDelete ∉ (itemC9.delete).2 ∧
    ((itemC9.delete).2.count (Eff.cacheClear 3)) = 1 :=
  C9_item_soft_delete itemC9 3 rfl

/-- C7: for an item with two properties whose position-ordered values are
(a, b) and (x, y), `get_all_variations` returns exactly four bindings in
standard Cartesian-product order (a,x), (a,y), (b,x), (b,y) — values iterated
in position order, the first property varying slowest. The function is pure,
so repeated calls yield the same order. -/
theorem C7_product_order (it : Item) (p1 p2 : Property) (a b x y : PropertyValue)
    (hp : it.properties = [p1, p2])
    (hv1 : p1.values = [a, b]) (hv2 : p2.values = [x, y])
    (hab : a.position ≤ b.position) (hxy : x.position ≤ y.position)
    (ha : a.prop_identity = p1.identity) (hb : b.prop_identity = p1.identity)
    (hx : x.prop_identity = p2.identity) (hy : y.prop_identity = p2.identity)
    (hne : p1.identity ≠ p2.identity) :
    it.get_all_variations.map VariationBinding.assignments =
      [[(p1.identity, a), (p2.identity, x)],
       [(p1.identity, a), (p2.identity, y)],
       [(p1.identity, b), (p2.identity, x)],
       [(p1.identity, b), (p2.identity, y)]] := by
  simp [Item.get_all_variations, hp, hv1, hv2, values_all, hab, hxy,
    listProduct, flattenL, combBinding, dictSet, ha, hb, hx, hy, hne]

/-- C7 witness: the concrete two-property item `itemC7` produces the four
bindings of the spec example, in product order. -/
theorem C7_witness :
    itemC7.get_all_variations.map VariationBinding.assignments =
      [[(p1C7.identity, vaC7), (p2C7.identity, vxC7)],
       [(p1C7.identity, vaC7), (p2C7.identity, vyC7)],
       [(p1C7.identity, vbC7), (p2C7.identity, vxC7)],
       [(p1C7.identity, vbC7), (p2C7.identity, vyC7)]] :=
  C7_product_order itemC7 p1C7 p2C7 vaC7 vbC7 vxC7 vyC7 rfl rfl rfl
    (by decide) (by decide) rfl rfl rfl rfl (by decide)

/-- C10 (quota ledger modelled from the spec, reservations serialized per
quota): on a quota of size 1 with nothing consumed, the first of two
reservation requests is granted and the second raises `QuotaExceeded` (the two
possible serialization orders of the two requests are the two instantiations
of the expiry parameters); after the granted lock's expiry has passed and been
reaped, a subsequent request is granted. -/
theorem C10_quota_size_one (e1 e2 t : Int) (h : e1 ≤ t) :
    reserve ⟨1, 0, []⟩ 1 e1 = Except.ok (⟨1, 0, [⟨e1⟩]⟩, ⟨e1⟩) ∧
    reserve ⟨1, 0, [⟨e1⟩]⟩ 1 e2 = Except.error QuotaError.QuotaExceeded ∧
    reserve (reap ⟨1, 0, [⟨e1⟩]⟩ t) 1 e2 = Except.ok (⟨1, 0, [⟨e2⟩]⟩, ⟨e2⟩) := by
  have ht : ¬(t < e1) := not_lt.mpr h
  refine ⟨rfl, rfl, ?_⟩
  simp [reap, reserve, List.filter_cons, ht]

/-- C2 counterexample: `Quota` is an event-owned entity type, but it overrides
neither `save` nor `delete`, so mutating the concrete quota `quotaC2` (whose
owning event is 1) never ends in a cache clear — refuting the claim that every
mutating operation on every listed type clears the owning event's cache. -/
theorem C2_counterexample :
    quotaC2.event = some 1 ∧
    (quotaC2.save).getLast? ≠ some (Eff.cacheClear 1) ∧
    (quotaC2.delete).getLast? ≠ some (Eff.cacheClear 1) := by
  refine ⟨rfl, ?_, ?_⟩ <;> decide

/-- C2 amended: for ItemCategory, Property, PropertyValue, Question, Item,
ItemVariation and Restriction (but not Quota, which overrides neither method),
`save` and `delete` call `clear()` on the owning event's cache as their last
side effect, whenever the owner reference consulted by the guard is set. -/
theorem C2_owned_entity_writes_clear_cache
    (c : ItemCategory) (p : Property) (v : PropertyValue) (q : Question)
    (it : Item) (iv : ItemVariation) (r : BaseRestriction)
    (e1 e2 e3 e4 e5 e6 e7 : Nat)
    (h1 : c.event = some e1) (h2 : p.event = some e2)
    (h3 : v.prop_event = some e3) (h4 : q.event = some e4)
    (h5 : it.event = some e5) (h6 : iv.item_event = some e6)
    (h7 : r.event = some e7) :
    (c.save).getLast? = some (Eff.cacheClear e1) ∧
    (c.delete).getLast? = some (Eff.cacheClear e1) ∧
    (p.save).getLast? = some (Eff.cacheClear e2) ∧
    (p.delete).getLast? = some (Eff.cacheClear e2) ∧
    (v.save).getLast? = some (Eff.cacheClear e3) ∧
    (v.delete).getLast? = some (Eff.cacheClear e3) ∧
    (q.save).getLast? = some (Eff.cacheClear e4) ∧
    (q.delete).getLast? = some (Eff.cacheClear e4) ∧
    (it.save).getLast? = some (Eff.cacheClear e5) ∧
    ((it.delete).2).getLast? = some (Eff.cacheClear e5) ∧
    (iv.save).getLast? = some (Eff.cacheClear e6) ∧
    (iv.delete).getLast? = some (Eff.cacheClear e6) ∧
    (r.save).getLast? = some (Eff.cacheClear e7) ∧
    (r.delete).getLast? = some (Eff.cacheClear e7) := by
  simp [ItemCategory.save, ItemCategory.delete, Property.save, Property.delete,
    PropertyValue.save, PropertyValue.delete, Question.save, Question.delete,
    Item.save, Item.delete, ItemVariation.save, ItemVariation.delete,
    BaseRestriction.save, BaseRestriction.delete, clearEvent,
    h1, h2, h3, h4, h5, h6, h7]

/-- C2 witness: the amended statement holds on one concrete entity of each of
the seven types. -/
theorem C2_witness :
    (catC2.save).getLast? = some (Eff.cacheClear 2) ∧
    (catC2.delete).getLast? = some (Eff.cacheClear 2) ∧
    (propC2.save).getLast? = some (Eff.cacheClear 3) ∧
    (propC2.delete).getLast? = some (Eff.cacheClear 3) ∧
    (pvC2.save).getLast? = some (Eff.cacheClear 4) ∧
    (pvC2.delete).getLast? = some (Eff.cacheClear 4) ∧
    (questC2.save).getLast? = some (Eff.cacheClear 5) ∧
    (questC2.delete).getLast? = some (Eff.cacheClear 5) ∧
    (itemC2.save).getLast? = some (Eff.cacheClear 6) ∧
    ((itemC2.delete).2).getLast? = some (Eff.cacheClear 6) ∧
    (ivC2.save).getLast? = some (Eff.cacheClear 7) ∧
    (ivC2.delete).getLast? = some (Eff.cacheClear 7) ∧
    (restC2.save).getLast? = some (Eff.cacheClear 8) ∧
    (restC2.delete).getLast? = some (Eff.cacheClear 8) :=
  C2_owned_entity_writes_clear_cache catC2 propC2 pvC2 questC2 itemC2 ivC2
    restC2 2 3 4 5 6 7 8 rfl rfl rfl rfl rfl rfl rfl

/-- C3 counterexample: on the concrete instance `instC3` the memo is filled by
a first `use_cache=True` call; saving the override row `varC3` changes the
stored data but not the memo, so a second `use_cache=True` call still returns
the old memoized result, which differs from what the current data yields —
refuting the claim that the write invalidates the memo. -/
theorem C3_counterexample :
    (Item.get_all_variations_method true instC3w).1 =
      (Item.get_all_variations_method true instC3).1 ∧
    (Item.get_all_variations_method true instC3w).1 ≠
      instC3w.item.get_all_variations := by
  constructor
  · rfl
  · decide

/-- C3 amended: `ItemVariation.save` clears the owning event's cache but does
not invalidate the in-memory memo of the item instance, so a subsequent
`get_all_variations(use_cache=True)` call returns the previously memoized
result unchanged (stale if the write affected the variation data). -/
theorem C3_memo_not_invalidated (inst : ItemInstance) (v : ItemVariation)
    (r : List VariationBinding) (e : Nat)
    (hmemo : inst.get_all_variations_cache = some r)
    (hev : v.item_event = some e) :
    (Item.get_all_variations_method true ((ItemVariation.save_on v inst).1)).1 = r ∧
    (ItemVariation.save_on v inst).2 = [Eff.dbWrite, Eff.cacheClear e] := by
  simp [ItemVariation.save_on, Item.get_all_variations_method, hmemo,
    ItemVariation.save, clearEvent, hev]

/-- C3 witness: the amended statement on a concrete instance with a memo. -/
theorem C3_witness :
    (Item.get_all_variations_method true ((ItemVariation.save_on varC3b instC3b).1)).1 = [] ∧
    (ItemVariation.save_on varC3b instC3b).2 = [Eff.dbWrite, Eff.cacheClear 9] :=
  C3_memo_not_invalidated instC3b varC3b [] 9 rfl rfl

/-- C10 witness: concrete run with expiries 3 and 4 and reap time 7. -/
theorem C10_witness :
    reserve ⟨1, 0, []⟩ 1 3 = Except.ok (⟨1, 0, [⟨3⟩]⟩, ⟨3⟩) ∧
    reserve ⟨1, 0, [⟨3⟩]⟩ 1 4 = Except.error QuotaError.QuotaExceeded ∧
    reserve (reap ⟨1, 0, [⟨3⟩]⟩ 7) 1 4 = Except.ok (⟨1, 0, [⟨4⟩]⟩, ⟨4⟩) :=
  C10_quota_size_one 3 4 7 (by decide)

end Tixlbase
